import Mathlib

/-!
Verification of the Alpaca adapter layer of the vibe-trader repository
(`Elijah/alpaca_tools.py`).

The adapter functions are shallowly embedded as pure Lean functions.  The
vendor SDK (network clients) is modelled as an explicit environment of
functions from request values to `Except String` outcomes: `Except.error e`
stands for the SDK raising an exception whose `str()` form is `e`, and
`Except.ok` for a normal return carrying the raw (dict-shaped) payload.
Python dictionaries are modelled as ordered association lists over a
JSON-like value type `Val`; a missing-key access (`d["k"]`) is a `KeyError`,
which the adapters catch at their boundary.  Each adapter returns, besides
its result dictionary, a trace of the vendor requests it issued, so that
routing and no-call properties are expressible.

External-library behaviour that is not part of this repository (the
`datetime.fromisoformat` parser, the pandas timestamp formatter, the current
clock) is kept abstract in an `Env` record, so theorems hold for every
behaviour of those libraries.
-/

/-- JSON-like values: the contents of the Python dictionaries the adapters
build and receive.  `nan` models the pandas NaN placeholder for a missing
cell. -/
inductive Val where
  | str : String → Val
  | num : Rat → Val
  | nan : Val
  | list : List Val → Val
  | dict : List (String × Val) → Val

/-- A Python dict with string keys, as an ordered association list. -/
abbrev Dict := List (String × Val)

/-- First-match lookup in an association list (Python `d[k]` / `k in d`). -/
def lookupKey : List (String × α) → String → Option α
  | [], _ => none
  | (k, v) :: rest, key => if k = key then some v else lookupKey rest key

/-- Lookup inside a `Val` that is a dictionary. -/
def valLookup : Val → String → Option Val
  | Val.dict kvs, k => lookupKey kvs k
  | _, _ => none

/-- Python dict assignment `d[k] = v`: replaces in place, else appends. -/
def insertKey : List (String × Val) → String → Val → List (String × Val)
  | [], k, v => [(k, v)]
  | (k', v') :: rest, k, v =>
      if k' = k then (k, v) :: rest else (k', v') :: insertKey rest k v

/-- `str(KeyError(k))` in Python is the key wrapped in single quotes. -/
def keyErr (k : String) : String := "\x27" ++ k ++ "\x27"

/-- Python `d[k]`: the value, or a `KeyError` exception. -/
def barGet (b : Dict) (k : String) : Except String Val :=
  match lookupKey b k with
  | some v => Except.ok v
  | none => Except.error (keyErr k)

/-- The error-tagged result dictionary every adapter builds in its
`except` clause: `{"status": "error", "message": str(e)}`. -/
def errDict (e : String) : Val :=
  Val.dict [("status", Val.str "error"), ("message", Val.str e)]

/-- A result dictionary is status-tagged: `status` is `"success"`, or it is
`"error"` and a `message` key is present. -/
def isTagged (v : Val) : Bool :=
  match v with
  | Val.dict kvs =>
      match lookupKey kvs "status" with
      | some (Val.str s) =>
          if s = "success" then true
          else if s = "error" then (lookupKey kvs "message").isSome
          else false
      | _ => false
  | _ => false

/-- Left-to-right effectful map: a Python list comprehension whose body may
raise, aborting the whole comprehension at the first exception. -/
def mapExcept (f : α → Except String β) : List α → Except String (List β)
  | [] => Except.ok []
  | x :: xs =>
      match f x with
      | Except.error e => Except.error e
      | Except.ok y =>
          match mapExcept f xs with
          | Except.error e => Except.error e
          | Except.ok ys => Except.ok (y :: ys)

/-! ### Python string primitives

Modelled directly over the character list so they compute by `rfl`. -/

/-- ASCII lowering of one character (`str.lower` on the ASCII inputs the
adapter compares against). -/
def pyCharLower (c : Char) : Char :=
  if 'A' ≤ c ∧ c ≤ 'Z' then Char.ofNat (c.toNat + 32) else c

/-- Python `s.lower()`. -/
def pyLower (s : String) : String := String.mk (s.data.map pyCharLower)

/-- Python whitespace as stripped by `str.strip()`. -/
def isPySpace (c : Char) : Bool :=
  c = ' ' ∨ c = '\t' ∨ c = '\n' ∨ c = '\r' ∨ c = '\x0b' ∨ c = '\x0c'

/-- Python `s.strip()`. -/
def pyStrip (s : String) : String :=
  String.mk (((s.data.dropWhile isPySpace).reverse.dropWhile isPySpace).reverse)

/-- Helper for `pySplitComma`, accumulating the current field reversed. -/
def splitCommaAux : List Char → List Char → List String
  | [], acc => [String.mk acc.reverse]
  | c :: cs, acc =>
      if c = ',' then String.mk acc.reverse :: splitCommaAux cs []
      else splitCommaAux cs (c :: acc)

/-- Python `s.split(",")`. -/
def pySplitComma (s : String) : List String := splitCommaAux s.data []

/-- Python `"/" in s`. -/
def pyContainsSlash (s : String) : Bool := s.data.contains '/'

/-! ### Vendor SDK enums and request objects (alpaca-py) -/

/-- Order side enum of the trading SDK. -/
inductive OrderSide where
  | BUY
  | SELL
  deriving DecidableEq

/-- Order type enum of the trading SDK (only market orders are used). -/
inductive OrderType where
  | MARKET
  | LIMIT
  deriving DecidableEq

/-- Time-in-force enum of the trading SDK. -/
inductive TimeInForce where
  | DAY
  | GTC
  | IOC
  | FOK
  deriving DecidableEq

/-- Bar timeframe enum of the data SDK. -/
inductive TimeFrame where
  | Minute
  | Hour
  | Day
  | Week
  | Month
  deriving DecidableEq

/-- Data feed enum of the data SDK. -/
inductive DataFeed where
  | IEX
  | SIP
  deriving DecidableEq

/-- `MarketOrderRequest` as built by `_place_market_order`. -/
structure MarketOrderRequest where
  symbol : String
  qty : Rat
  side : OrderSide
  type : OrderType
  time_in_force : TimeInForce
  deriving DecidableEq

/-- `CryptoBarsRequest`: `start`/`end` are the (already parsed or
clock-supplied) datetime values, absent where the caller omits them. -/
structure CryptoBarsRequest where
  symbol_or_symbols : String
  timeframe : TimeFrame
  limit : Nat
  start : Option String
  end_ : Option String
  deriving DecidableEq

/-- `StockBarsRequest`: like `CryptoBarsRequest` plus the data feed. -/
structure StockBarsRequest where
  symbol_or_symbols : String
  timeframe : TimeFrame
  limit : Nat
  start : Option String
  end_ : Option String
  feed : DataFeed
  deriving DecidableEq

/-- One request issued to a historical-data client: the adapter's outward
call trace distinguishes the crypto client from the stock client. -/
inductive DataCall where
  | crypto : CryptoBarsRequest → DataCall
  | stock : StockBarsRequest → DataCall

/-- The timeframe carried by an issued data request. -/
def DataCall.tf : DataCall → TimeFrame
  | DataCall.crypto r => r.timeframe
  | DataCall.stock r => r.timeframe

/-- A bars response: the raw dict mapping each symbol to its list of raw
bar dicts (fields `o`,`h`,`l`,`c`,`v`,`t`,`n`,`vw`). -/
abbrev BarsResp := List (String × List Dict)

/-- The vendor SDK as seen by the data adapters: each client maps a request
to a normal payload or a raised exception message. -/
structure Vendor where
  cryptoBars : CryptoBarsRequest → Except String BarsResp
  stockBars : StockBarsRequest → Except String BarsResp

/-- Behaviour of the external libraries the adapter leans on but which are
not code of this repository: the ISO-8601 parser (`datetime.fromisoformat`,
which may raise on malformed input), the pandas timestamp formatter
(`pd.to_datetime(...).dt.strftime(...)` applied to one cell), and the
current UTC day boundaries produced by `datetime.now`. -/
structure Env where
  parseIso : String → Except String String
  fmtTs : Val → Val
  todayStart : String
  todayEnd : String

/-! ### Trading adapter -/

/-- The local-validation error result of `_place_market_order`. -/
def invalidSideDict : Val :=
  Val.dict [("status", Val.str "error"),
            ("message", Val.str "Invalid order side. Use \x27buy\x27 or \x27sell\x27.")]

/-- The (output key, vendor key) pairs of the order dict built on the
success path of `_place_market_order`, in source order. -/
def orderFieldKeys : List (String × String) :=
  [("id", "id"), ("symbol", "symbol"), ("qty", "qty"),
   ("order_type", "order_type"), ("side", "side"), ("type", "type"),
   ("time_in_force", "time_in_force"), ("status", "status"),
   ("position_intent", "position_intent"), ("asset_class", "asset_class"),
   ("expired_at", "expires_at")]

/-- The success payload of `_place_market_order`: each field is read off the
raw order dict in source order; a missing field raises a `KeyError`, failing
the whole call (caught by the adapter's `except`). -/
def normalizeOrder (order : Dict) : Except String Val :=
  match mapExcept (fun p => (barGet order p.2).map (fun v => (p.1, v))) orderFieldKeys with
  | Except.error e => Except.error e
  | Except.ok fields =>
      Except.ok (Val.dict [("status", Val.str "success"), ("order", Val.dict fields)])

/-- The `MarketOrderRequest` value `_place_market_order` constructs for a
validated side. -/
def placedReq (symbol : String) (quantity : Rat) (side : String)
    (time_in_force : TimeInForce) : MarketOrderRequest :=
  { symbol := symbol
    qty := quantity
    side := if pyLower side = "buy" then OrderSide.BUY else OrderSide.SELL
    type := OrderType.MARKET
    time_in_force := time_in_force }

/-- `_place_market_order`.  The `submit` argument is the vendor's
`trading_client.submit_order`; the first component of the result is the
request it was invoked with (`none` when no vendor call was made). -/
def _place_market_order (symbol : String) (quantity : Rat) (side : String)
    (time_in_force : TimeInForce) (submit : MarketOrderRequest → Except String Dict) :
    Option MarketOrderRequest × Val :=
  if ¬ (pyLower side = "buy" ∨ pyLower side = "sell") then
    (none, invalidSideDict)
  else
    match submit (placedReq symbol quantity side time_in_force) with
    | Except.error e => (some (placedReq symbol quantity side time_in_force), errDict e)
    | Except.ok order =>
        match normalizeOrder order with
        | Except.error e => (some (placedReq symbol quantity side time_in_force), errDict e)
        | Except.ok v => (some (placedReq symbol quantity side time_in_force), v)

/-- `place_crypto_market_order`: delegates with time-in-force GTC. -/
def place_crypto_market_order (symbol : String) (quantity : Rat) (side : String)
    (submit : MarketOrderRequest → Except String Dict) : Option MarketOrderRequest × Val :=
  _place_market_order symbol quantity side TimeInForce.GTC submit

/-- `place_stock_market_order`: delegates with time-in-force DAY. -/
def place_stock_market_order (symbol : String) (quantity : Rat) (side : String)
    (submit : MarketOrderRequest → Except String Dict) : Option MarketOrderRequest × Val :=
  _place_market_order symbol quantity side TimeInForce.DAY submit

/-- `cancel_order_by_id`.  The `cancel` argument is the vendor's
`trading_client.cancel_order_by_id`. -/
def cancel_order_by_id (order_id : String)
    (cancel : String → Except String Unit) : Val :=
  match cancel order_id with
  | Except.error e => errDict e
  | Except.ok _ =>
      Val.dict [("status", Val.str "success"), ("cancelled_order", Val.str order_id)]

/-! ### News adapter -/

/-- Python `article.get(k, "")`. -/
def newsGet (a : Dict) (k : String) : Val := (lookupKey a k).getD (Val.str "")

/-- The no-news error text (verbatim from the source, typos included). -/
def noNewsMsg (symbol : String) : String :=
  "There is now news found for symbol " ++ symbol ++
  ". May be it is an invalid symbol " ++ symbol ++ ". Please check again."

/-- One summarized news article. -/
def newsSummaryItem (a : Dict) : Val :=
  Val.dict [("headline", newsGet a "headline"), ("summary", newsGet a "summary"),
            ("source", newsGet a "source"), ("created_at", newsGet a "created_at")]

/-- `fetch_today_news_for_symbol`.  The `fetchNews` argument is the outcome
of `news_client.get_news` followed by the `news["news"]` extraction:
`Except.error` covers both an SDK exception and the `KeyError` on a
response missing the `"news"` key. -/
def fetch_today_news_for_symbol (symbol : String)
    (fetchNews : Except String (List Dict)) : Val :=
  match fetchNews with
  | Except.error e => errDict e
  | Except.ok news =>
      if news.isEmpty then errDict (noNewsMsg symbol)
      else
        let news_summary := news.map newsSummaryItem
        if news_summary.isEmpty then
          Val.dict [("status", Val.str "error"), ("news", Val.str (noNewsMsg symbol))]
        else
          Val.dict [("status", Val.str "success"), ("news", Val.list news_summary)]

/-! ### Candlestick adapters -/

/-- One normalized candlestick record; field reads happen in the source
order of the dict literal, and the first missing vendor field raises. -/
def normalizeCandle (b : Dict) : Except String Val :=
  match barGet b "t" with
  | Except.error e => Except.error e
  | Except.ok t =>
  match barGet b "o" with
  | Except.error e => Except.error e
  | Except.ok o =>
  match barGet b "h" with
  | Except.error e => Except.error e
  | Except.ok h =>
  match barGet b "l" with
  | Except.error e => Except.error e
  | Except.ok l =>
  match barGet b "c" with
  | Except.error e => Except.error e
  | Except.ok c =>
  match barGet b "v" with
  | Except.error e => Except.error e
  | Except.ok v =>
  match barGet b "vw" with
  | Except.error e => Except.error e
  | Except.ok vw =>
  match barGet b "n" with
  | Except.error e => Except.error e
  | Except.ok n =>
      Except.ok (Val.dict
        [("timestamp", t), ("open", o), ("high", h), ("low", l), ("close", c),
         ("bar_volume", v), ("volumn_weighted_average_price", vw),
         ("trade_count", n)])

/-- The no-data error text of the candlestick operations. -/
def noCandleMsg (symbol : String) : String :=
  "No candlestick data found for symbol " ++ symbol ++ "."

/-- Shared tail of both candlestick operations: the symbol-existence check
followed by normalization of every bar.  (Chart generation is the disabled
side channel — `SAVE_CHART_ARTIFACT` off — and does not touch the result.) -/
def candleResult (symbol : String) (outcome : Except String BarsResp) : Val :=
  match outcome with
  | Except.error e => errDict e
  | Except.ok resp =>
      match lookupKey resp symbol with
      | none => errDict (noCandleMsg symbol)
      | some bars =>
          if bars.isEmpty then errDict (noCandleMsg symbol)
          else
            match mapExcept normalizeCandle bars with
            | Except.error e => errDict e
            | Except.ok recs =>
                Val.dict [("status", Val.str "success"),
                          ("candlestick_data", Val.list recs)]

/-- The request `get_today_candlestick_crypto_data` issues. -/
def candleCryptoReq (env : Env) (symbol : String) : CryptoBarsRequest :=
  { symbol_or_symbols := symbol
    timeframe := TimeFrame.Hour
    limit := 10000
    start := some env.todayStart
    end_ := some env.todayEnd }

/-- `get_today_candlestick_crypto_data`. -/
def get_today_candlestick_crypto_data (env : Env) (symbol : String)
    (vendor : Vendor) : List DataCall × Val :=
  ([DataCall.crypto (candleCryptoReq env symbol)],
   candleResult symbol (vendor.cryptoBars (candleCryptoReq env symbol)))

/-- The request `get_today_candlestick_stock_data` issues. -/
def candleStockReq (env : Env) (symbol : String) : StockBarsRequest :=
  { symbol_or_symbols := symbol
    timeframe := TimeFrame.Hour
    limit := 10000
    start := some env.todayStart
    end_ := some env.todayEnd
    feed := DataFeed.IEX }

/-- `get_today_candlestick_stock_data`. -/
def get_today_candlestick_stock_data (env : Env) (symbol : String)
    (vendor : Vendor) : List DataCall × Val :=
  ([DataCall.stock (candleStockReq env symbol)],
   candleResult symbol (vendor.stockBars (candleStockReq env symbol)))

/-! ### Current price -/

/-- The no-data error text of `get_current_price`. -/
def noPriceMsg (symbol : String) : String :=
  "No price data found for " ++ symbol ++ "."

/-- The crypto request `get_current_price` issues (no start/end). -/
def currentPriceCryptoReq (symbol : String) : CryptoBarsRequest :=
  { symbol_or_symbols := symbol
    timeframe := TimeFrame.Minute
    limit := 1
    start := none
    end_ := none }

/-- The stock request `get_current_price` issues (no start/end). -/
def currentPriceStockReq (symbol : String) : StockBarsRequest :=
  { symbol_or_symbols := symbol
    timeframe := TimeFrame.Minute
    limit := 1
    start := none
    end_ := none
    feed := DataFeed.IEX }

/-- Shared tail of `get_current_price`: existence check, then the success
dict is built from `bars[symbol][-1]`, reading `c` then `t` (a missing key
raises and is caught). -/
def currentPriceResult (symbol : String) (outcome : Except String BarsResp) : Val :=
  match outcome with
  | Except.error e => errDict e
  | Except.ok resp =>
      match lookupKey resp symbol with
      | none => errDict (noPriceMsg symbol)
      | some bars =>
          if bars.isEmpty then errDict (noPriceMsg symbol)
          else
            match bars.getLast? with
            | none => errDict (noPriceMsg symbol)
            | some last_bar =>
                match barGet last_bar "c" with
                | Except.error e => errDict e
                | Except.ok c =>
                    match barGet last_bar "t" with
                    | Except.error e => errDict e
                    | Except.ok t =>
                        Val.dict [("status", Val.str "success"),
                                  ("symbol", Val.str symbol),
                                  ("price", c), ("timestamp", t)]

/-- `get_current_price`: routes on `"/" in symbol`. -/
def get_current_price (symbol : String) (vendor : Vendor) : List DataCall × Val :=
  if pyContainsSlash symbol then
    ([DataCall.crypto (currentPriceCryptoReq symbol)],
     currentPriceResult symbol (vendor.cryptoBars (currentPriceCryptoReq symbol)))
  else
    ([DataCall.stock (currentPriceStockReq symbol)],
     currentPriceResult symbol (vendor.stockBars (currentPriceStockReq symbol)))

/-! ### Historical prices -/

/-- `tf_map.get(interval.lower(), TimeFrame.Day)`. -/
def tfOfInterval (interval : String) : TimeFrame :=
  match pyLower interval with
  | "minute" => TimeFrame.Minute
  | "hour" => TimeFrame.Hour
  | "day" => TimeFrame.Day
  | _ => TimeFrame.Day

/-- The per-symbol no-data error text of `get_historical_prices`. -/
def noHistMsg (symbol : String) : String :=
  "No historical data found for " ++ symbol ++ "."

/-- A pandas DataFrame built from a list of dicts has a column `k` exactly
when some row dict carries the key `k`. -/
def dfHasCol (bars : List Dict) (k : String) : Bool :=
  bars.any (fun b => (lookupKey b k).isSome)

/-- A DataFrame cell: the row's value for the column, NaN where the row
dict lacks the key. -/
def dfGet (b : Dict) (k : String) : Val := (lookupKey b k).getD Val.nan

/-- One record of `df.to_dict(orient="records")` after the column
selection and rename: the timestamp cell goes through the pandas
formatter, every other cell is carried unchanged. -/
def histRec (env : Env) (b : Dict) : Val :=
  Val.dict [("timestamp", env.fmtTs (dfGet b "t")), ("open", dfGet b "o"),
            ("high", dfGet b "h"), ("low", dfGet b "l"), ("close", dfGet b "c"),
            ("volume", dfGet b "v"), ("trade_count", dfGet b "n")]

/-- The required DataFrame columns (beyond `t`) that no row provides:
their absence makes the `df[[...]]` selection raise. -/
def histMissingCols (bars : List Dict) : List String :=
  ["o", "h", "l", "c", "v", "n"].filter (fun k => ¬ dfHasCol bars k)

/-- The per-symbol normalization of `get_historical_prices`, given the
bars the response holds for the symbol (`none` when the key is absent).
An absent or empty bar list yields the per-symbol error entry (`.ok`,
since the loop continues); pandas raises — aborting the whole call — when
the `t` column is missing (line `df["t"] = ...`) or any other required
column is missing (the `df[[...]]` selection). -/
def histNormalize (env : Env) (symbol : String) (mbars : Option (List Dict)) :
    Except String Val :=
  match mbars with
  | none => Except.ok (errDict (noHistMsg symbol))
  | some bars =>
      if bars.isEmpty then Except.ok (errDict (noHistMsg symbol))
      else if ¬ dfHasCol bars "t" then Except.error (keyErr "t")
      else if ¬ (histMissingCols bars).isEmpty then
          Except.error ("[" ++ String.intercalate ", " ((histMissingCols bars).map keyErr) ++ "] not in index")
      else
          Except.ok (Val.dict
            [("status", Val.str "success"), ("symbol", Val.str symbol),
             ("historical_data", Val.list (bars.map (histRec env)))])

/-- The crypto request one iteration of `get_historical_prices` issues. -/
def histCryptoReq (startDt endDt : String) (tf : TimeFrame)
    (symbol : String) : CryptoBarsRequest :=
  { symbol_or_symbols := symbol
    timeframe := tf
    limit := 10000
    start := some startDt
    end_ := some endDt }

/-- The stock request one iteration of `get_historical_prices` issues. -/
def histStockReq (startDt endDt : String) (tf : TimeFrame)
    (symbol : String) : StockBarsRequest :=
  { symbol_or_symbols := symbol
    timeframe := tf
    limit := 10000
    start := some startDt
    end_ := some endDt
    feed := DataFeed.IEX }

/-- One iteration of the symbol loop of `get_historical_prices`: routes on
`"/" in symbol`, returns the issued request and either the per-symbol
result dict or the exception aborting the whole call. -/
def histStep (env : Env) (vendor : Vendor) (startDt endDt : String)
    (tf : TimeFrame) (symbol : String) : List DataCall × Except String Val :=
  if pyContainsSlash symbol then
    ([DataCall.crypto (histCryptoReq startDt endDt tf symbol)],
     match vendor.cryptoBars (histCryptoReq startDt endDt tf symbol) with
     | Except.error e => Except.error e
     | Except.ok resp => histNormalize env symbol (lookupKey resp symbol))
  else
    ([DataCall.stock (histStockReq startDt endDt tf symbol)],
     match vendor.stockBars (histStockReq startDt endDt tf symbol) with
     | Except.error e => Except.error e
     | Except.ok resp => histNormalize env symbol (lookupKey resp symbol))

/-- The symbol loop of `get_historical_prices`: an exception anywhere
aborts with the error dict, else `results[symbol]` is assigned per
symbol and the accumulated dict is returned. -/
def histLoop (env : Env) (vendor : Vendor) (startDt endDt : String)
    (tf : TimeFrame) : List String → List DataCall → Dict → List DataCall × Val
  | [], calls, results => (calls, Val.dict results)
  | s :: rest, calls, results =>
      match histStep env vendor startDt endDt tf s with
      | (cs, Except.error e) => (calls ++ cs, errDict e)
      | (cs, Except.ok v) =>
          histLoop env vendor startDt endDt tf rest (calls ++ cs) (insertKey results s v)

/-- Body of `get_historical_prices` after the timeframe was selected:
parse the two dates (a parse failure is caught into the error dict), split
and strip the comma-separated symbols, then run the loop. -/
def histAfterTf (env : Env) (vendor : Vendor) (symbols startS endS : String)
    (tf : TimeFrame) : List DataCall × Val :=
  match env.parseIso startS with
  | Except.error e => ([], errDict e)
  | Except.ok startDt =>
      match env.parseIso endS with
      | Except.error e => ([], errDict e)
      | Except.ok endDt =>
          let symbol_list := ((pySplitComma symbols).map pyStrip).filter (fun s => ¬ s.isEmpty)
          histLoop env vendor startDt endDt tf symbol_list [] []

/-- `get_historical_prices`. -/
def get_historical_prices (env : Env) (vendor : Vendor)
    (symbols startS endS interval : String) : List DataCall × Val :=
  histAfterTf env vendor symbols startS endS (tfOfInterval interval)

/-! ### Concrete fixtures (environments, vendor stubs, sample data) -/

/-- A trivial external-library environment: the parser accepts every
string unchanged and the formatter is the identity. -/
def env0 : Env :=
  { parseIso := fun s => Except.ok s
    fmtTs := fun v => v
    todayStart := "2025-07-01T00:00:00Z"
    todayEnd := "2025-07-01T23:59:59Z" }

/-- A sample raw vendor bar with every field present. -/
def barAAPL : Dict :=
  [("c", Val.num 2), ("h", Val.num 3), ("l", Val.num 1), ("n", Val.num 4),
   ("o", Val.num 2), ("t", Val.str "2025-06-30T14:00:00Z"), ("v", Val.num 5),
   ("vw", Val.num 2)]

/-- A vendor whose stock client returns one AAPL bar and whose crypto
client raises. -/
def vendorAAPL : Vendor :=
  { cryptoBars := fun _ => Except.error "network down"
    stockBars := fun _ => Except.ok [("AAPL", [barAAPL])] }

/-- A vendor whose responses never carry the requested symbol (crypto) or
carry it with an empty bar list (stock, key `"AAPL"`). -/
def vendorNoBars : Vendor :=
  { cryptoBars := fun _ => Except.ok []
    stockBars := fun _ => Except.ok [("AAPL", [])] }

/-- The single-bar response of the `get_current_price("AAPL")` scenario:
close 200.5 at `2025-06-30T14:00:00Z`. -/
def barScenario : Dict :=
  [("c", Val.num 200.5), ("t", Val.str "2025-06-30T14:00:00Z")]

/-- The vendor of the `get_current_price("AAPL")` scenario. -/
def vendorScenario : Vendor :=
  { cryptoBars := fun _ => Except.error "network down"
    stockBars := fun _ => Except.ok [("AAPL", [barScenario])] }

/-- A raw order response carrying every field the adapter reads. -/
def orderResp : Dict :=
  [("id", Val.str "462076e1"), ("symbol", Val.str "AAPL"), ("qty", Val.str "1"),
   ("order_type", Val.str "market"), ("side", Val.str "buy"),
   ("type", Val.str "market"), ("time_in_force", Val.str "day"),
   ("status", Val.str "pending_new"), ("position_intent", Val.str "buy_to_open"),
   ("asset_class", Val.str "us_equity"), ("expires_at", Val.str "2025-09-28T20:00:00Z")]

/-- A submit stub that always accepts and returns `orderResp`. -/
def submitOk : MarketOrderRequest → Except String Dict := fun _ => Except.ok orderResp

/-- The normalized record `get_today_candlestick_stock_data` builds from
`barAAPL` (volume lands under `bar_volume`, timestamp verbatim). -/
def candleRecAAPL : Val :=
  Val.dict [("timestamp", Val.str "2025-06-30T14:00:00Z"), ("open", Val.num 2),
            ("high", Val.num 3), ("low", Val.num 1), ("close", Val.num 2),
            ("bar_volume", Val.num 5), ("volumn_weighted_average_price", Val.num 2),
            ("trade_count", Val.num 4)]

/-! ### Helper lemmas -/

theorem isTagged_errDict (e : String) : isTagged (errDict e) = true := rfl

theorem barGet_ok {b : Dict} {k : String} {v : Val} :
    barGet b k = Except.ok v ↔ lookupKey b k = some v := by
  unfold barGet
  cases h : lookupKey b k <;> simp

theorem mapExcept_ok_length {f : α → Except String β} :
    ∀ {xs : List α} {ys : List β}, mapExcept f xs = Except.ok ys →
      ys.length = xs.length := by
  intro xs
  induction xs with
  | nil => intro ys h; simp only [mapExcept] at h; cases h; rfl
  | cons x xs ih =>
      intro ys h
      simp only [mapExcept] at h
      cases h1 : f x with
      | error e => rw [h1] at h; cases h
      | ok y =>
          rw [h1] at h
          cases h2 : mapExcept f xs with
          | error e => rw [h2] at h; cases h
          | ok zs =>
              rw [h2] at h
              cases h
              simp [ih h2]

theorem mem_insertKey {res : List (String × Val)} {k : String} {v : Val} {p : String × Val} :
    p ∈ insertKey res k v → p = (k, v) ∨ p ∈ res := by
  induction res with
  | nil => intro h; simp only [insertKey] at h; simp at h; exact Or.inl h
  | cons q rest ih =>
      intro h
      simp only [insertKey] at h
      split at h
      · rcases List.mem_cons.mp h with h' | h'
        · exact Or.inl h'
        · exact Or.inr (List.mem_cons_of_mem _ h')
      · rcases List.mem_cons.mp h with h' | h'
        · exact Or.inr (h' ▸ List.mem_cons_self _ _)
        · rcases ih h' with h'' | h''
          · exact Or.inl h''
          · exact Or.inr (List.mem_cons_of_mem _ h'')

theorem errDict_ne_success {e : String} {kvs : List (String × Val)} :
    errDict e = Val.dict (("status", Val.str "success") :: kvs) → False := by
  intro h
  simp only [errDict, Val.dict.injEq, List.cons.injEq, Prod.mk.injEq, Val.str.injEq] at h
  exact absurd h.1.2 (by decide)

theorem isTagged_success_cons (rest : List (String × Val)) :
    isTagged (Val.dict (("status", Val.str "success") :: rest)) = true := rfl

theorem normalizeOrder_ok_tagged {order : Dict} {v : Val} :
    normalizeOrder order = Except.ok v → isTagged v = true := by
  intro h
  unfold normalizeOrder at h
  cases h1 : mapExcept (fun p => (barGet order p.2).map (fun w => (p.1, w))) orderFieldKeys with
  | error e => rw [h1] at h; cases h
  | ok fields => rw [h1] at h; cases h; exact isTagged_success_cons _

theorem place_tagged (symbol : String) (q : Rat) (side : String) (tif : TimeInForce)
    (submit : MarketOrderRequest → Except String Dict) :
    isTagged (_place_market_order symbol q side tif submit).2 = true := by
  unfold _place_market_order
  split
  · rfl
  · split
    · exact isTagged_errDict _
    · split
      · exact isTagged_errDict _
      · rename_i order hsub v hnorm
        exact normalizeOrder_ok_tagged hnorm

theorem candleResult_tagged (symbol : String) (outcome : Except String BarsResp) :
    isTagged (candleResult symbol outcome) = true := by
  unfold candleResult
  split
  · exact isTagged_errDict _
  · split
    · exact isTagged_errDict _
    · split
      · exact isTagged_errDict _
      · split
        · exact isTagged_errDict _
        · exact isTagged_success_cons _

theorem currentPriceResult_tagged (symbol : String) (outcome : Except String BarsResp) :
    isTagged (currentPriceResult symbol outcome) = true := by
  unfold currentPriceResult
  split
  · exact isTagged_errDict _
  · split
    · exact isTagged_errDict _
    · split
      · exact isTagged_errDict _
      · split
        · exact isTagged_errDict _
        · split
          · exact isTagged_errDict _
          · split
            · exact isTagged_errDict _
            · exact isTagged_success_cons _

theorem news_tagged (symbol : String) (fetchNews : Except String (List Dict)) :
    isTagged (fetch_today_news_for_symbol symbol fetchNews) = true := by
  unfold fetch_today_news_for_symbol
  cases fetchNews with
  | error e => exact isTagged_errDict _
  | ok news =>
      cases news with
      | nil => exact isTagged_errDict _
      | cons a rest => exact isTagged_success_cons _

theorem histNormalize_ok_tagged {env : Env} {symbol : String} {mbars : Option (List Dict)}
    {v : Val} : histNormalize env symbol mbars = Except.ok v → isTagged v = true := by
  intro h
  unfold histNormalize at h
  split at h
  · cases h; exact isTagged_errDict _
  · split at h
    · cases h; exact isTagged_errDict _
    · split at h
      · cases h
      · split at h
        · cases h
        · cases h; exact isTagged_success_cons _

theorem histStep_ok_tagged {env : Env} {vendor : Vendor} {sd ed : String}
    {tf : TimeFrame} {s : String} {cs : List DataCall} {v : Val} :
    histStep env vendor sd ed tf s = (cs, Except.ok v) → isTagged v = true := by
  intro h
  unfold histStep at h
  split at h
  · cases h1 : vendor.cryptoBars (histCryptoReq sd ed tf s) with
    | error e =>
        rw [h1] at h
        cases congrArg Prod.snd h
    | ok resp =>
        rw [h1] at h
        have h2 := congrArg Prod.snd h
        exact histNormalize_ok_tagged h2
  · cases h1 : vendor.stockBars (histStockReq sd ed tf s) with
    | error e =>
        rw [h1] at h
        cases congrArg Prod.snd h
    | ok resp =>
        rw [h1] at h
        have h2 := congrArg Prod.snd h
        exact histNormalize_ok_tagged h2

/-- The shape guarantee of the per-symbol results map `get_historical_prices`
returns when no exception aborts it. -/
def taggedResults (v : Val) : Prop :=
  isTagged v = true ∨
    ∃ kvs, v = Val.dict kvs ∧ ∀ p ∈ kvs, isTagged p.2 = true

theorem histLoop_taggedResults (env : Env) (vendor : Vendor) (sd ed : String)
    (tf : TimeFrame) :
    ∀ (syms : List String) (calls : List DataCall) (res : Dict),
      (∀ p ∈ res, isTagged p.2 = true) →
      taggedResults (histLoop env vendor sd ed tf syms calls res).2 := by
  intro syms
  induction syms with
  | nil =>
      intro calls res hres
      exact Or.inr ⟨res, rfl, hres⟩
  | cons s rest ih =>
      intro calls res hres
      rcases hstep : histStep env vendor sd ed tf s with ⟨cs, r⟩
      cases r with
      | error e =>
          unfold histLoop
          rw [hstep]
          exact Or.inl (isTagged_errDict _)
      | ok v =>
          unfold histLoop
          rw [hstep]
          refine ih (calls ++ cs) (insertKey res s v) ?_
          intro p hp
          rcases mem_insertKey hp with h' | h'
          · rw [h']
            exact histStep_ok_tagged hstep
          · exact hres p h'

theorem errDict_status {e : String} {kvs : List (String × Val)} :
    errDict e = Val.dict kvs → lookupKey kvs "status" = some (Val.str "error") := by
  intro h
  injection h with h'
  rw [← h']
  rfl

theorem status_clash {kvs : List (String × Val)}
    (h1 : lookupKey kvs "status" = some (Val.str "error"))
    (h2 : lookupKey kvs "status" = some (Val.str "success")) : False := by
  rw [h1] at h2
  injection h2 with h'
  injection h' with h''
  exact absurd h'' (by decide)

theorem candleResult_success_nonempty {symbol : String} {outcome : Except String BarsResp}
    {kvs : List (String × Val)} {recs : List Val} :
    candleResult symbol outcome = Val.dict kvs →
    lookupKey kvs "status" = some (Val.str "success") →
    lookupKey kvs "candlestick_data" = some (Val.list recs) →
    recs ≠ [] := by
  intro h hs hd
  unfold candleResult at h
  split at h
  · exact (status_clash (errDict_status h) hs).elim
  · split at h
    · exact (status_clash (errDict_status h) hs).elim
    · split at h
      · exact (status_clash (errDict_status h) hs).elim
      · split at h
        · exact (status_clash (errDict_status h) hs).elim
        · rename_i barsl hlk hne hmap recs' hok
          injection h with h'
          subst h'
          simp only [lookupKey] at hd
          simp at hd
          subst hd
          have hlen := mapExcept_ok_length hok
          cases barsl with
          | nil => exact absurd rfl hne
          | cons b bs =>
              intro hnil
              rw [hnil] at hlen
              simp at hlen

theorem histNormalize_none (env : Env) (symbol : String) :
    histNormalize env symbol none = Except.ok (errDict (noHistMsg symbol)) := rfl

theorem histNormalize_nil (env : Env) (symbol : String) :
    histNormalize env symbol (some []) = Except.ok (errDict (noHistMsg symbol)) := rfl

theorem histNormalize_success_shape {env : Env} {symbol : String} {bars : List Dict}
    {kvs : List (String × Val)} {recs : List Val} :
    histNormalize env symbol (some bars) = Except.ok (Val.dict kvs) →
    lookupKey kvs "status" = some (Val.str "success") →
    lookupKey kvs "historical_data" = some (Val.list recs) →
    recs = bars.map (histRec env) ∧ recs ≠ [] := by
  intro h hs hd
  simp only [histNormalize] at h
  split at h
  · injection h with h'
    exact (status_clash (errDict_status h') hs).elim
  · split at h
    · cases h
    · split at h
      · cases h
      · injection h with h'
        injection h' with h''
        subst h''
        simp only [lookupKey] at hd
        simp at hd
        rename_i hne _ _
        refine ⟨hd.symm, ?_⟩
        rw [← hd]
        cases barsx : bars with
        | nil => rw [barsx] at hne; exact absurd rfl hne
        | cons b bs => simp

theorem normalizeCandle_fields {b : Dict} {r : Val} :
    normalizeCandle b = Except.ok r →
    valLookup r "open" = lookupKey b "o" ∧
    valLookup r "high" = lookupKey b "h" ∧
    valLookup r "low" = lookupKey b "l" ∧
    valLookup r "close" = lookupKey b "c" ∧
    valLookup r "bar_volume" = lookupKey b "v" ∧
    valLookup r "timestamp" = lookupKey b "t" := by
  intro h
  unfold normalizeCandle at h
  split at h
  · cases h
  · split at h
    · cases h
    · split at h
      · cases h
      · split at h
        · cases h
        · split at h
          · cases h
          · split at h
            · cases h
            · split at h
              · cases h
              · split at h
                · cases h
                · rename_i xt t ht xo o ho xg g hg xl l hl xc c hc xv v hv xvw vw hvw xn n hn
                  injection h with h'
                  subst h'
                  exact ⟨by rw [barGet_ok.mp ho]; rfl, by rw [barGet_ok.mp hg]; rfl,
                         by rw [barGet_ok.mp hl]; rfl, by rw [barGet_ok.mp hc]; rfl,
                         by rw [barGet_ok.mp hv]; rfl, by rw [barGet_ok.mp ht]; rfl⟩

theorem histStep_calls_tf {env : Env} {vendor : Vendor} {sd ed : String}
    {tf : TimeFrame} {s : String} {c : DataCall} :
    c ∈ (histStep env vendor sd ed tf s).1 → DataCall.tf c = tf := by
  intro hc
  unfold histStep at hc
  split at hc
  · simp at hc
    subst hc
    rfl
  · simp at hc
    subst hc
    rfl

theorem histLoop_calls_tf (env : Env) (vendor : Vendor) (sd ed : String)
    (tf : TimeFrame) :
    ∀ (syms : List String) (calls : List DataCall) (res : Dict),
      (∀ c ∈ calls, DataCall.tf c = tf) →
      ∀ c ∈ (histLoop env vendor sd ed tf syms calls res).1, DataCall.tf c = tf := by
  intro syms
  induction syms with
  | nil =>
      intro calls res hcalls c hmem
      exact hcalls c hmem
  | cons s rest ih =>
      intro calls res hcalls c hmem
      rcases hstep : histStep env vendor sd ed tf s with ⟨cs, r⟩
      have hcs : ∀ c' ∈ cs, DataCall.tf c' = tf := by
        intro c' hc'
        exact histStep_calls_tf
          (show c' ∈ (histStep env vendor sd ed tf s).1 from by
            rw [hstep]; exact hc')
      have happ : ∀ c' ∈ calls ++ cs, DataCall.tf c' = tf := by
        intro c' hc'
        rcases List.mem_append.mp hc' with h' | h'
        · exact hcalls c' h'
        · exact hcs c' h'
      cases r with
      | error e =>
          unfold histLoop at hmem
          rw [hstep] at hmem
          exact happ c hmem
      | ok v =>
          unfold histLoop at hmem
          rw [hstep] at hmem
          exact ih (calls ++ cs) (insertKey res s v) happ c hmem

theorem histAfterTf_calls_tf {env : Env} {vendor : Vendor} {symbols sS eS : String}
    {tf : TimeFrame} {c : DataCall} :
    c ∈ (histAfterTf env vendor symbols sS eS tf).1 → DataCall.tf c = tf := by
  intro hc
  unfold histAfterTf at hc
  split at hc
  · simp at hc
  · split at hc
    · simp at hc
    · exact histLoop_calls_tf env vendor _ _ tf _ [] [] (by intro c' hc'; cases hc') c hc

theorem candleResult_nobars {symbol : String} {resp : BarsResp}
    (h : lookupKey resp symbol = none ∨ lookupKey resp symbol = some []) :
    candleResult symbol (Except.ok resp) = errDict (noCandleMsg symbol) := by
  rcases h with h | h <;> simp [candleResult, h]

theorem currentPriceResult_nobars {symbol : String} {resp : BarsResp}
    (h : lookupKey resp symbol = none ∨ lookupKey resp symbol = some []) :
    currentPriceResult symbol (Except.ok resp) = errDict (noPriceMsg symbol) := by
  rcases h with h | h <;> simp [currentPriceResult, h]

theorem histStep_nobars_crypto {env : Env} {vendor : Vendor} {sd ed : String}
    {tf : TimeFrame} {s : String} {resp : BarsResp}
    (h1 : pyContainsSlash s = true)
    (h2 : vendor.cryptoBars (histCryptoReq sd ed tf s) = Except.ok resp)
    (h3 : lookupKey resp s = none ∨ lookupKey resp s = some []) :
    (histStep env vendor sd ed tf s).2 = Except.ok (errDict (noHistMsg s)) := by
  rcases h3 with h3 | h3 <;>
    simp [histStep, h1, h2, h3, histNormalize_none, histNormalize_nil]

theorem histStep_nobars_stock {env : Env} {vendor : Vendor} {sd ed : String}
    {tf : TimeFrame} {s : String} {resp : BarsResp}
    (h1 : pyContainsSlash s = false)
    (h2 : vendor.stockBars (histStockReq sd ed tf s) = Except.ok resp)
    (h3 : lookupKey resp s = none ∨ lookupKey resp s = some []) :
    (histStep env vendor sd ed tf s).2 = Except.ok (errDict (noHistMsg s)) := by
  rcases h3 with h3 | h3 <;>
    simp [histStep, h1, h2, h3, histNormalize_none, histNormalize_nil]

theorem candleResult_recs {symbol : String} {resp : BarsResp} {bars : List Dict}
    {recs : List Val}
    (h2 : lookupKey resp symbol = some bars)
    (h3 : candleResult symbol (Except.ok resp)
            = Val.dict [("status", Val.str "success"),
                        ("candlestick_data", Val.list recs)]) :
    mapExcept normalizeCandle bars = Except.ok recs := by
  simp only [candleResult, h2] at h3
  split at h3
  · exact (errDict_ne_success h3).elim
  · split at h3
    · exact (errDict_ne_success h3).elim
    · rename_i recsx hok
      simp at h3
      rw [← h3]
      exact hok

theorem place_valid_fst {symbol : String} {q : Rat} {side : String}
    {tif : TimeInForce} {submit : MarketOrderRequest → Except String Dict}
    (h : pyLower side = "buy" ∨ pyLower side = "sell") :
    (_place_market_order symbol q side tif submit).1
      = some (placedReq symbol q side tif) := by
  unfold _place_market_order
  rw [if_neg (not_not_intro h)]
  cases hs : submit (placedReq symbol q side tif) with
  | error e => rfl
  | ok order =>
      dsimp only
      cases hn : normalizeOrder order with
      | error e => rfl
      | ok v => rfl

theorem place_invalid {symbol : String} {q : Rat} {side : String}
    {tif : TimeInForce} {submit : MarketOrderRequest → Except String Dict}
    (h1 : pyLower side ≠ "buy") (h2 : pyLower side ≠ "sell") :
    _place_market_order symbol q side tif submit = (none, invalidSideDict) := by
  unfold _place_market_order
  rw [if_pos (show ¬ (pyLower side = "buy" ∨ pyLower side = "sell") from
        fun hor => hor.elim h1 h2)]

/-- C2.  A side lowercasing to `buy` makes `_place_market_order` (and the
stock/crypto wrappers) submit the vendor request with the buy side; a side
lowercasing outside `{buy, sell}` returns exactly the invalid-side error
dict and issues no vendor call. -/
theorem claim_C2 :
    ∀ (symbol : String) (q : Rat) (side : String) (tif : TimeInForce)
      (submit : MarketOrderRequest → Except String Dict),
      (pyLower side = "buy" →
        ((_place_market_order symbol q side tif submit).1
            = some (placedReq symbol q side tif) ∧
          (placedReq symbol q side tif).side = OrderSide.BUY) ∧
        (place_stock_market_order symbol q side submit).1
            = some (placedReq symbol q side TimeInForce.DAY) ∧
        (place_crypto_market_order symbol q side submit).1
            = some (placedReq symbol q side TimeInForce.GTC)) ∧
      (pyLower side ≠ "buy" → pyLower side ≠ "sell" →
        _place_market_order symbol q side tif submit
            = (none, Val.dict [("status", Val.str "error"),
                ("message", Val.str "Invalid order side. Use \x27buy\x27 or \x27sell\x27.")]) ∧
        place_stock_market_order symbol q side submit
            = (none, Val.dict [("status", Val.str "error"),
                ("message", Val.str "Invalid order side. Use \x27buy\x27 or \x27sell\x27.")]) ∧
        place_crypto_market_order symbol q side submit
            = (none, Val.dict [("status", Val.str "error"),
                ("message", Val.str "Invalid order side. Use \x27buy\x27 or \x27sell\x27.")])) := by
  intro symbol q side tif submit
  constructor
  · intro h
    refine ⟨⟨place_valid_fst (Or.inl h), ?_⟩,
            place_valid_fst (Or.inl h), place_valid_fst (Or.inl h)⟩
    unfold placedReq
    rw [if_pos h]
  · intro h1 h2
    exact ⟨place_invalid h1 h2, place_invalid h1 h2, place_invalid h1 h2⟩

theorem claim_C2_witness :
    ((_place_market_order "AAPL" 1 "BUY" TimeInForce.DAY submitOk).1
        = some (placedReq "AAPL" 1 "BUY" TimeInForce.DAY) ∧
      (placedReq "AAPL" 1 "BUY" TimeInForce.DAY).side = OrderSide.BUY) ∧
    place_stock_market_order "AAPL" 1 "hold" submitOk
        = (none, Val.dict [("status", Val.str "error"),
            ("message", Val.str "Invalid order side. Use \x27buy\x27 or \x27sell\x27.")]) := by
  constructor
  · exact ((claim_C2 "AAPL" 1 "BUY" TimeInForce.DAY submitOk).1 (by decide)).1
  · exact ((claim_C2 "AAPL" 1 "hold" TimeInForce.DAY submitOk).2
      (by decide) (by decide)).2.1

/-- C5.  `place_stock_market_order` submits with time-in-force DAY and
`place_crypto_market_order` with GTC; both pass symbol, quantity and side
unchanged through `_place_market_order`. -/
theorem claim_C5 :
    ∀ (symbol : String) (q : Rat) (side : String)
      (submit : MarketOrderRequest → Except String Dict),
      place_stock_market_order symbol q side submit
          = _place_market_order symbol q side TimeInForce.DAY submit ∧
      place_crypto_market_order symbol q side submit
          = _place_market_order symbol q side TimeInForce.GTC submit ∧
      (pyLower side = "buy" ∨ pyLower side = "sell" →
        ((place_stock_market_order symbol q side submit).1
            = some (placedReq symbol q side TimeInForce.DAY) ∧
          (placedReq symbol q side TimeInForce.DAY).time_in_force = TimeInForce.DAY ∧
          (placedReq symbol q side TimeInForce.DAY).symbol = symbol ∧
          (placedReq symbol q side TimeInForce.DAY).qty = q ∧
          (placedReq symbol q side TimeInForce.DAY).type = OrderType.MARKET ∧
          (placedReq symbol q side TimeInForce.DAY).side
            = (if pyLower side = "buy" then OrderSide.BUY else OrderSide.SELL)) ∧
        ((place_crypto_market_order symbol q side submit).1
            = some (placedReq symbol q side TimeInForce.GTC) ∧
          (placedReq symbol q side TimeInForce.GTC).time_in_force = TimeInForce.GTC ∧
          (placedReq symbol q side TimeInForce.GTC).symbol = symbol ∧
          (placedReq symbol q side TimeInForce.GTC).qty = q ∧
          (placedReq symbol q side TimeInForce.GTC).type = OrderType.MARKET ∧
          (placedReq symbol q side TimeInForce.GTC).side
            = (if pyLower side = "buy" then OrderSide.BUY else OrderSide.SELL))) := by
  intro symbol q side submit
  refine ⟨rfl, rfl, fun h => ⟨⟨place_valid_fst h, rfl, rfl, rfl, rfl, rfl⟩,
    ⟨place_valid_fst h, rfl, rfl, rfl, rfl, rfl⟩⟩⟩

theorem claim_C5_witness :
    (place_stock_market_order "AAPL" 1 "buy" submitOk).1
        = some (placedReq "AAPL" 1 "buy" TimeInForce.DAY) ∧
    (placedReq "AAPL" 1 "buy" TimeInForce.DAY).time_in_force = TimeInForce.DAY ∧
    (place_crypto_market_order "BTC/USD" 1 "sell" submitOk).1
        = some (placedReq "BTC/USD" 1 "sell" TimeInForce.GTC) ∧
    (placedReq "BTC/USD" 1 "sell" TimeInForce.GTC).time_in_force = TimeInForce.GTC := by
  refine ⟨((claim_C5 "AAPL" 1 "buy" submitOk).2.2 (Or.inl (by decide))).1.1,
          ((claim_C5 "AAPL" 1 "buy" submitOk).2.2 (Or.inl (by decide))).1.2.1,
          ((claim_C5 "BTC/USD" 1 "sell" submitOk).2.2 (Or.inr (by decide))).2.1,
          ((claim_C5 "BTC/USD" 1 "sell" submitOk).2.2 (Or.inr (by decide))).2.2.1⟩

/-- C9.  `cancel_order_by_id` wraps a vendor exception verbatim as the
error message and, on a normal vendor return, succeeds echoing the id. -/
theorem claim_C9 :
    ∀ (order_id : String) (cancel : String → Except String Unit),
      (∀ e, cancel order_id = Except.error e →
        cancel_order_by_id order_id cancel = errDict e ∧
        valLookup (errDict e) "message" = some (Val.str e)) ∧
      (cancel order_id = Except.ok () →
        cancel_order_by_id order_id cancel
          = Val.dict [("status", Val.str "success"),
                      ("cancelled_order", Val.str order_id)]) := by
  intro oid cancel
  constructor
  · intro e he
    refine ⟨?_, rfl⟩
    unfold cancel_order_by_id
    rw [he]
  · intro hok
    unfold cancel_order_by_id
    rw [hok]

/-- A cancel stub that always raises, as for an unknown order id. -/
def cancelFail : String → Except String Unit :=
  fun _ => Except.error "order not found"

/-- A cancel stub that always succeeds. -/
def cancelOk : String → Except String Unit := fun _ => Except.ok ()

theorem claim_C9_witness :
    cancel_order_by_id "42" cancelFail = errDict "order not found" ∧
    valLookup (errDict "order not found") "message"
        = some (Val.str "order not found") ∧
    cancel_order_by_id "42" cancelOk
        = Val.dict [("status", Val.str "success"),
                    ("cancelled_order", Val.str "42")] := by
  refine ⟨((claim_C9 "42" cancelFail).1 "order not found" rfl).1,
          ((claim_C9 "42" cancelFail).1 "order not found" rfl).2,
          (claim_C9 "42" cancelOk).2 rfl⟩

theorem currentPriceResult_success {symbol : String} {resp : BarsResp}
    {bars : List Dict} {last_bar : Dict} {c t : Val}
    (h1 : lookupKey resp symbol = some bars)
    (h2 : bars.getLast? = some last_bar)
    (h3 : lookupKey last_bar "c" = some c)
    (h4 : lookupKey last_bar "t" = some t) :
    currentPriceResult symbol (Except.ok resp)
      = Val.dict [("status", Val.str "success"), ("symbol", Val.str symbol),
                  ("price", c), ("timestamp", t)] := by
  have hne : bars.isEmpty = false := by
    cases bars
    · simp at h2
    · rfl
  simp [currentPriceResult, h1, hne, h2, barGet, h3, h4]

theorem get_current_price_stock_route {symbol : String} {vendor : Vendor}
    (h : pyContainsSlash symbol = false) :
    get_current_price symbol vendor
      = ([DataCall.stock (currentPriceStockReq symbol)],
         currentPriceResult symbol (vendor.stockBars (currentPriceStockReq symbol))) := by
  simp [get_current_price, h]

theorem get_current_price_crypto_route {symbol : String} {vendor : Vendor}
    (h : pyContainsSlash symbol = true) :
    get_current_price symbol vendor
      = ([DataCall.crypto (currentPriceCryptoReq symbol)],
         currentPriceResult symbol (vendor.cryptoBars (currentPriceCryptoReq symbol))) := by
  simp [get_current_price, h]

/-- C8.  On either route, when the vendor response holds bars for the
symbol, `get_current_price` succeeds with the close price and timestamp of
the last bar (scenario: AAPL single bar, close 200.5). -/
theorem claim_C8 :
    ∀ (symbol : String) (vendor : Vendor) (resp : BarsResp) (bars : List Dict)
      (last_bar : Dict) (c t : Val),
      (pyContainsSlash symbol = false →
        vendor.stockBars (currentPriceStockReq symbol) = Except.ok resp →
        lookupKey resp symbol = some bars →
        bars.getLast? = some last_bar →
        lookupKey last_bar "c" = some c →
        lookupKey last_bar "t" = some t →
        (get_current_price symbol vendor).2
          = Val.dict [("status", Val.str "success"), ("symbol", Val.str symbol),
                      ("price", c), ("timestamp", t)]) ∧
      (pyContainsSlash symbol = true →
        vendor.cryptoBars (currentPriceCryptoReq symbol) = Except.ok resp →
        lookupKey resp symbol = some bars →
        bars.getLast? = some last_bar →
        lookupKey last_bar "c" = some c →
        lookupKey last_bar "t" = some t →
        (get_current_price symbol vendor).2
          = Val.dict [("status", Val.str "success"), ("symbol", Val.str symbol),
                      ("price", c), ("timestamp", t)]) := by
  intro symbol vendor resp bars last_bar c t
  constructor
  · intro hr hv h1 h2 h3 h4
    rw [get_current_price_stock_route hr]
    rw [show ((DataCall.stock (currentPriceStockReq symbol) :: List.nil : List DataCall),
        currentPriceResult symbol (vendor.stockBars (currentPriceStockReq symbol))).2
      = currentPriceResult symbol (vendor.stockBars (currentPriceStockReq symbol)) from rfl]
    rw [hv]
    exact currentPriceResult_success h1 h2 h3 h4
  · intro hr hv h1 h2 h3 h4
    rw [get_current_price_crypto_route hr]
    rw [show ((DataCall.crypto (currentPriceCryptoReq symbol) :: List.nil : List DataCall),
        currentPriceResult symbol (vendor.cryptoBars (currentPriceCryptoReq symbol))).2
      = currentPriceResult symbol (vendor.cryptoBars (currentPriceCryptoReq symbol)) from rfl]
    rw [hv]
    exact currentPriceResult_success h1 h2 h3 h4

/-- A vendor whose crypto client has one BTC/USD bar and whose stock
client raises. -/
def vendorBTC : Vendor :=
  { cryptoBars := fun _ => Except.ok [("BTC/USD", [barAAPL])]
    stockBars := fun _ => Except.error "network down" }

theorem claim_C8_witness :
    (get_current_price "AAPL" vendorScenario).2
      = Val.dict [("status", Val.str "success"), ("symbol", Val.str "AAPL"),
                  ("price", Val.num 200.5),
                  ("timestamp", Val.str "2025-06-30T14:00:00Z")] ∧
    (get_current_price "BTC/USD" vendorBTC).2
      = Val.dict [("status", Val.str "success"), ("symbol", Val.str "BTC/USD"),
                  ("price", Val.num 2),
                  ("timestamp", Val.str "2025-06-30T14:00:00Z")] := by
  constructor
  · exact (claim_C8 "AAPL" vendorScenario [("AAPL", [barScenario])] [barScenario]
      barScenario (Val.num 200.5) (Val.str "2025-06-30T14:00:00Z")).1
      rfl rfl rfl rfl rfl rfl
  · exact (claim_C8 "BTC/USD" vendorBTC [("BTC/USD", [barAAPL])] [barAAPL]
      barAAPL (Val.num 2) (Val.str "2025-06-30T14:00:00Z")).2
      rfl rfl rfl rfl rfl rfl

/-- C6.  `get_current_price` and each per-symbol iteration of
`get_historical_prices` route through the crypto data client exactly when
the symbol contains a slash, and through the stock client otherwise. -/
theorem claim_C6 :
    ∀ (symbol : String) (vendor : Vendor) (env : Env) (sd ed : String)
      (tf : TimeFrame),
      (pyContainsSlash symbol = true →
        (get_current_price symbol vendor).1
            = [DataCall.crypto (currentPriceCryptoReq symbol)] ∧
        (histStep env vendor sd ed tf symbol).1
            = [DataCall.crypto (histCryptoReq sd ed tf symbol)]) ∧
      (pyContainsSlash symbol = false →
        (get_current_price symbol vendor).1
            = [DataCall.stock (currentPriceStockReq symbol)] ∧
        (histStep env vendor sd ed tf symbol).1
            = [DataCall.stock (histStockReq sd ed tf symbol)]) := by
  intro symbol vendor env sd ed tf
  constructor
  · intro h
    constructor
    · rw [get_current_price_crypto_route h]
    · simp [histStep, h]
  · intro h
    constructor
    · rw [get_current_price_stock_route h]
    · simp [histStep, h]

theorem claim_C6_witness :
    ((get_current_price "BTC/USD" vendorBTC).1
        = [DataCall.crypto (currentPriceCryptoReq "BTC/USD")] ∧
      (histStep env0 vendorBTC "2025-06-01" "2025-06-30" TimeFrame.Day "BTC/USD").1
        = [DataCall.crypto (histCryptoReq "2025-06-01" "2025-06-30" TimeFrame.Day "BTC/USD")]) ∧
    ((get_current_price "AAPL" vendorAAPL).1
        = [DataCall.stock (currentPriceStockReq "AAPL")] ∧
      (histStep env0 vendorAAPL "2025-06-01" "2025-06-30" TimeFrame.Day "AAPL").1
        = [DataCall.stock (histStockReq "2025-06-01" "2025-06-30" TimeFrame.Day "AAPL")]) := by
  constructor
  · exact (claim_C6 "BTC/USD" vendorBTC env0 "2025-06-01" "2025-06-30"
      TimeFrame.Day).1 (by decide)
  · exact (claim_C6 "AAPL" vendorAAPL env0 "2025-06-01" "2025-06-30"
      TimeFrame.Day).2 (by decide)

/-- C10.  A non-empty vendor news list always yields a non-empty summary,
so the malformed second error branch of `fetch_today_news_for_symbol`
(error text under `"news"`) is unreachable: every reachable result carries
its error text under `"message"` and never under `"news"`. -/
theorem claim_C10 :
    ∀ (symbol : String) (fetchNews : Except String (List Dict)),
      (∀ news, fetchNews = Except.ok news → news ≠ [] →
        fetch_today_news_for_symbol symbol fetchNews
          = Val.dict [("status", Val.str "success"),
                      ("news", Val.list (news.map newsSummaryItem))] ∧
        news.map newsSummaryItem ≠ []) ∧
      (∀ kvs, fetch_today_news_for_symbol symbol fetchNews = Val.dict kvs →
        lookupKey kvs "status" = some (Val.str "error") →
        (lookupKey kvs "message").isSome = true ∧ lookupKey kvs "news" = none) := by
  intro symbol fetchNews
  constructor
  · intro news hok hne
    subst hok
    cases news with
    | nil => exact absurd rfl hne
    | cons a rest => exact ⟨rfl, by simp⟩
  · intro kvs h hs
    cases fetchNews with
    | error e =>
        injection h with h'
        rw [← h']
        exact ⟨rfl, rfl⟩
    | ok news =>
        cases news with
        | nil =>
            injection h with h'
            rw [← h']
            exact ⟨rfl, rfl⟩
        | cons a rest =>
            have h' : fetch_today_news_for_symbol symbol (Except.ok (a :: rest))
                = Val.dict [("status", Val.str "success"),
                    ("news", Val.list ((a :: rest).map newsSummaryItem))] := rfl
            rw [h'] at h
            injection h with h''
            rw [← h''] at hs
            exact (status_clash hs (by rfl)).elim

theorem claim_C10_witness :
    (fetch_today_news_for_symbol "AAPL" (Except.ok [[("headline", Val.str "Up")]])
        = Val.dict [("status", Val.str "success"),
            ("news", Val.list (([[("headline", Val.str "Up")]] : List Dict).map newsSummaryItem))] ∧
      ([[("headline", Val.str "Up")]] : List Dict).map newsSummaryItem ≠ []) ∧
    ((lookupKey [("status", Val.str "error"), ("message", Val.str "boom")] "message").isSome = true ∧
      lookupKey [("status", Val.str "error"), ("message", Val.str "boom")] "news" = none) := by
  constructor
  · exact (claim_C10 "AAPL" (Except.ok [[("headline", Val.str "Up")]])).1
      [[("headline", Val.str "Up")]] rfl (by simp)
  · exact (claim_C10 "AAPL" (Except.error "boom")).2
      [("status", Val.str "error"), ("message", Val.str "boom")] rfl rfl

theorem cancel_tagged (oid : String) (cancel : String → Except String Unit) :
    isTagged (cancel_order_by_id oid cancel) = true := by
  unfold cancel_order_by_id
  split
  · exact isTagged_errDict _
  · exact isTagged_success_cons _

theorem get_current_price_tagged (symbol : String) (vendor : Vendor) :
    isTagged (get_current_price symbol vendor).2 = true := by
  unfold get_current_price
  split
  · exact currentPriceResult_tagged _ _
  · exact currentPriceResult_tagged _ _

theorem get_historical_prices_taggedResults (env : Env) (vendor : Vendor)
    (symbols sS eS interval : String) :
    taggedResults (get_historical_prices env vendor symbols sS eS interval).2 := by
  unfold get_historical_prices histAfterTf
  split
  · exact Or.inl (isTagged_errDict _)
  · split
    · exact Or.inl (isTagged_errDict _)
    · exact histLoop_taggedResults env vendor _ _ _ _ [] []
        (by intro p hp; cases hp)

/-- C1 counterexample.  `get_historical_prices("AAPL", ...)` with a normal
vendor response returns the per-symbol map `{"AAPL": {...}}`, a dictionary
with no `status` key at all: the operation's return value is not a
status-tagged dictionary, contradicting the claim for this input. -/
theorem claim_C1_counterexample :
    (get_historical_prices env0 vendorAAPL "AAPL" "2025-06-01" "2025-06-30" "day").2
        = Val.dict [("AAPL", Val.dict
            [("status", Val.str "success"), ("symbol", Val.str "AAPL"),
             ("historical_data", Val.list [histRec env0 barAAPL])])] ∧
    isTagged (get_historical_prices env0 vendorAAPL "AAPL" "2025-06-01"
        "2025-06-30" "day").2 = false :=
  ⟨rfl, rfl⟩

/-- C1 amended.  Every modelled adapter operation is total (never raises)
and returns a status-tagged dictionary, except `get_historical_prices`,
whose non-exceptional return is instead a per-symbol map each of whose
entries is status-tagged (its exceptional return is the status-tagged
error dictionary). -/
theorem claim_C1_amended :
    ∀ (env : Env) (vendor : Vendor) (symbol : String) (q : Rat) (side : String)
      (tif : TimeInForce) (submit : MarketOrderRequest → Except String Dict)
      (cancel : String → Except String Unit) (order_id : String)
      (fetchNews : Except String (List Dict)) (symbols sS eS interval : String),
      isTagged (_place_market_order symbol q side tif submit).2 = true ∧
      isTagged (place_stock_market_order symbol q side submit).2 = true ∧
      isTagged (place_crypto_market_order symbol q side submit).2 = true ∧
      isTagged (cancel_order_by_id order_id cancel) = true ∧
      isTagged (fetch_today_news_for_symbol symbol fetchNews) = true ∧
      isTagged (get_today_candlestick_crypto_data env symbol vendor).2 = true ∧
      isTagged (get_today_candlestick_stock_data env symbol vendor).2 = true ∧
      isTagged (get_current_price symbol vendor).2 = true ∧
      taggedResults (get_historical_prices env vendor symbols sS eS interval).2 := by
  intro env vendor symbol q side tif submit cancel order_id fetchNews symbols sS eS interval
  exact ⟨place_tagged symbol q side tif submit,
         place_tagged symbol q side TimeInForce.DAY submit,
         place_tagged symbol q side TimeInForce.GTC submit,
         cancel_tagged order_id cancel,
         news_tagged symbol fetchNews,
         candleResult_tagged symbol (vendor.cryptoBars (candleCryptoReq env symbol)),
         candleResult_tagged symbol (vendor.stockBars (candleStockReq env symbol)),
         get_current_price_tagged symbol vendor,
         get_historical_prices_taggedResults env vendor symbols sS eS interval⟩

/-- C3.  In every bar-fetching operation, a vendor response with no bars
for the requested symbol (key absent or empty list) produces an
error-tagged result for that symbol, and no success result ever carries an
empty bar sequence. -/
theorem claim_C3 :
    (∀ (env : Env) (symbol : String) (vendor : Vendor) (resp : BarsResp),
      vendor.cryptoBars (candleCryptoReq env symbol) = Except.ok resp →
      lookupKey resp symbol = none ∨ lookupKey resp symbol = some [] →
      (get_today_candlestick_crypto_data env symbol vendor).2
        = errDict (noCandleMsg symbol)) ∧
    (∀ (env : Env) (symbol : String) (vendor : Vendor) (resp : BarsResp),
      vendor.stockBars (candleStockReq env symbol) = Except.ok resp →
      lookupKey resp symbol = none ∨ lookupKey resp symbol = some [] →
      (get_today_candlestick_stock_data env symbol vendor).2
        = errDict (noCandleMsg symbol)) ∧
    (∀ (symbol : String) (vendor : Vendor) (resp : BarsResp),
      pyContainsSlash symbol = true →
      vendor.cryptoBars (currentPriceCryptoReq symbol) = Except.ok resp →
      lookupKey resp symbol = none ∨ lookupKey resp symbol = some [] →
      (get_current_price symbol vendor).2 = errDict (noPriceMsg symbol)) ∧
    (∀ (symbol : String) (vendor : Vendor) (resp : BarsResp),
      pyContainsSlash symbol = false →
      vendor.stockBars (currentPriceStockReq symbol) = Except.ok resp →
      lookupKey resp symbol = none ∨ lookupKey resp symbol = some [] →
      (get_current_price symbol vendor).2 = errDict (noPriceMsg symbol)) ∧
    (∀ (env : Env) (vendor : Vendor) (sd ed : String) (tf : TimeFrame)
        (symbol : String) (resp : BarsResp),
      pyContainsSlash symbol = true →
      vendor.cryptoBars (histCryptoReq sd ed tf symbol) = Except.ok resp →
      lookupKey resp symbol = none ∨ lookupKey resp symbol = some [] →
      (histStep env vendor sd ed tf symbol).2
        = Except.ok (errDict (noHistMsg symbol))) ∧
    (∀ (env : Env) (vendor : Vendor) (sd ed : String) (tf : TimeFrame)
        (symbol : String) (resp : BarsResp),
      pyContainsSlash symbol = false →
      vendor.stockBars (histStockReq sd ed tf symbol) = Except.ok resp →
      lookupKey resp symbol = none ∨ lookupKey resp symbol = some [] →
      (histStep env vendor sd ed tf symbol).2
        = Except.ok (errDict (noHistMsg symbol))) ∧
    (∀ (env : Env) (symbol : String) (vendor : Vendor)
        (kvs : List (String × Val)) (recs : List Val),
      (get_today_candlestick_crypto_data env symbol vendor).2 = Val.dict kvs →
      lookupKey kvs "status" = some (Val.str "success") →
      lookupKey kvs "candlestick_data" = some (Val.list recs) → recs ≠ []) ∧
    (∀ (env : Env) (symbol : String) (vendor : Vendor)
        (kvs : List (String × Val)) (recs : List Val),
      (get_today_candlestick_stock_data env symbol vendor).2 = Val.dict kvs →
      lookupKey kvs "status" = some (Val.str "success") →
      lookupKey kvs "candlestick_data" = some (Val.list recs) → recs ≠ []) ∧
    (∀ (env : Env) (symbol : String) (bars : List Dict)
        (kvs : List (String × Val)) (recs : List Val),
      histNormalize env symbol (some bars) = Except.ok (Val.dict kvs) →
      lookupKey kvs "status" = some (Val.str "success") →
      lookupKey kvs "historical_data" = some (Val.list recs) → recs ≠ []) := by
  refine ⟨?_, ?_, ?_, ?_, ?_, ?_, ?_, ?_, ?_⟩
  · intro env symbol vendor resp h1 h2
    show candleResult symbol (vendor.cryptoBars (candleCryptoReq env symbol)) = _
    rw [h1]
    exact candleResult_nobars h2
  · intro env symbol vendor resp h1 h2
    show candleResult symbol (vendor.stockBars (candleStockReq env symbol)) = _
    rw [h1]
    exact candleResult_nobars h2
  · intro symbol vendor resp hr h1 h2
    rw [get_current_price_crypto_route hr]
    show currentPriceResult symbol (vendor.cryptoBars (currentPriceCryptoReq symbol)) = _
    rw [h1]
    exact currentPriceResult_nobars h2
  · intro symbol vendor resp hr h1 h2
    rw [get_current_price_stock_route hr]
    show currentPriceResult symbol (vendor.stockBars (currentPriceStockReq symbol)) = _
    rw [h1]
    exact currentPriceResult_nobars h2
  · intro env vendor sd ed tf symbol resp hr h1 h2
    exact histStep_nobars_crypto hr h1 h2
  · intro env vendor sd ed tf symbol resp hr h1 h2
    exact histStep_nobars_stock hr h1 h2
  · intro env symbol vendor kvs recs h hs hd
    exact candleResult_success_nonempty h hs hd
  · intro env symbol vendor kvs recs h hs hd
    exact candleResult_success_nonempty h hs hd
  · intro env symbol bars kvs recs h hs hd
    exact (histNormalize_success_shape h hs hd).2

theorem claim_C3_witness :
    (get_today_candlestick_crypto_data env0 "BTC/USD" vendorNoBars).2
        = errDict (noCandleMsg "BTC/USD") ∧
    (get_today_candlestick_stock_data env0 "AAPL" vendorNoBars).2
        = errDict (noCandleMsg "AAPL") ∧
    (get_current_price "BTC/USD" vendorNoBars).2 = errDict (noPriceMsg "BTC/USD") ∧
    (get_current_price "AAPL" vendorNoBars).2 = errDict (noPriceMsg "AAPL") ∧
    (histStep env0 vendorNoBars "2025-06-01" "2025-06-30" TimeFrame.Day "BTC/USD").2
        = Except.ok (errDict (noHistMsg "BTC/USD")) ∧
    (histStep env0 vendorNoBars "2025-06-01" "2025-06-30" TimeFrame.Day "AAPL").2
        = Except.ok (errDict (noHistMsg "AAPL")) ∧
    ([candleRecAAPL] : List Val) ≠ [] ∧
    ([candleRecAAPL] : List Val) ≠ [] ∧
    ([histRec env0 barAAPL] : List Val) ≠ [] := by
  obtain ⟨c1, c2, c3, c4, c5, c6, c7, c8, c9⟩ := claim_C3
  refine ⟨c1 env0 "BTC/USD" vendorNoBars [] rfl (Or.inl rfl),
          c2 env0 "AAPL" vendorNoBars [("AAPL", [])] rfl (Or.inr rfl),
          c3 "BTC/USD" vendorNoBars [] (by decide) rfl (Or.inl rfl),
          c4 "AAPL" vendorNoBars [("AAPL", [])] (by decide) rfl (Or.inr rfl),
          c5 env0 vendorNoBars "2025-06-01" "2025-06-30" TimeFrame.Day "BTC/USD"
            [] (by decide) rfl (Or.inl rfl),
          c6 env0 vendorNoBars "2025-06-01" "2025-06-30" TimeFrame.Day "AAPL"
            [("AAPL", [])] (by decide) rfl (Or.inr rfl),
          c7 env0 "BTC/USD" vendorBTC
            [("status", Val.str "success"), ("candlestick_data", Val.list [candleRecAAPL])]
            [candleRecAAPL] rfl rfl rfl,
          c8 env0 "AAPL" vendorAAPL
            [("status", Val.str "success"), ("candlestick_data", Val.list [candleRecAAPL])]
            [candleRecAAPL] rfl rfl rfl,
          c9 env0 "AAPL" [barAAPL]
            [("status", Val.str "success"), ("symbol", Val.str "AAPL"),
             ("historical_data", Val.list [histRec env0 barAAPL])]
            [histRec env0 barAAPL] rfl rfl rfl⟩

/-- C4 counterexample.  On a successful stock candlestick fetch the
normalized record stores the vendor's `v` under `bar_volume`, not under
`volume`: the record has no `volume` field at all, so the claimed
`volume = v` 1:1 mapping fails for the candlestick operations. -/
theorem claim_C4_counterexample :
    (get_today_candlestick_stock_data env0 "AAPL" vendorAAPL).2
        = Val.dict [("status", Val.str "success"),
                    ("candlestick_data", Val.list [candleRecAAPL])] ∧
    valLookup candleRecAAPL "volume" = none ∧
    lookupKey barAAPL "v" = some (Val.num 5) ∧
    valLookup candleRecAAPL "volume" ≠ lookupKey barAAPL "v" := by
  refine ⟨rfl, rfl, rfl, ?_⟩
  intro h
  rw [show valLookup candleRecAAPL "volume" = none from rfl,
      show lookupKey barAAPL "v" = some (Val.num 5) from rfl] at h
  exact Option.noConfusion h

/-- C4 amended.  On every success path the normalized record's values come
1:1 from the vendor bar with no transformation other than the timestamp
formatting of `get_historical_prices`: the candlestick operations copy
`o`,`h`,`l`,`c` to `open`/`high`/`low`/`close`, copy `t` verbatim to
`timestamp`, and store `v` under `bar_volume` (not `volume`);
`get_historical_prices` stores `o`,`h`,`l`,`c`,`v` under
`open`/`high`/`low`/`close`/`volume` and the formatted `t` under
`timestamp`. -/
theorem claim_C4_amended :
    (∀ (b : Dict) (r : Val), normalizeCandle b = Except.ok r →
      valLookup r "open" = lookupKey b "o" ∧
      valLookup r "high" = lookupKey b "h" ∧
      valLookup r "low" = lookupKey b "l" ∧
      valLookup r "close" = lookupKey b "c" ∧
      valLookup r "bar_volume" = lookupKey b "v" ∧
      valLookup r "timestamp" = lookupKey b "t") ∧
    (∀ (env : Env) (b : Dict),
      valLookup (histRec env b) "open" = some (dfGet b "o") ∧
      valLookup (histRec env b) "high" = some (dfGet b "h") ∧
      valLookup (histRec env b) "low" = some (dfGet b "l") ∧
      valLookup (histRec env b) "close" = some (dfGet b "c") ∧
      valLookup (histRec env b) "volume" = some (dfGet b "v") ∧
      valLookup (histRec env b) "timestamp" = some (env.fmtTs (dfGet b "t"))) ∧
    (∀ (b : Dict) (k : String) (v : Val), lookupKey b k = some v → dfGet b k = v) ∧
    (∀ (env : Env) (symbol : String) (vendor : Vendor) (resp : BarsResp)
        (bars : List Dict) (recs : List Val),
      vendor.stockBars (candleStockReq env symbol) = Except.ok resp →
      lookupKey resp symbol = some bars →
      (get_today_candlestick_stock_data env symbol vendor).2
        = Val.dict [("status", Val.str "success"),
                    ("candlestick_data", Val.list recs)] →
      mapExcept normalizeCandle bars = Except.ok recs) ∧
    (∀ (env : Env) (symbol : String) (bars : List Dict)
        (kvs : List (String × Val)) (recs : List Val),
      histNormalize env symbol (some bars) = Except.ok (Val.dict kvs) →
      lookupKey kvs "status" = some (Val.str "success") →
      lookupKey kvs "historical_data" = some (Val.list recs) →
      recs = bars.map (histRec env)) := by
  refine ⟨?_, ?_, ?_, ?_, ?_⟩
  · intro b r h
    exact normalizeCandle_fields h
  · intro env b
    exact ⟨rfl, rfl, rfl, rfl, rfl, rfl⟩
  · intro b k v h
    simp [dfGet, h]
  · intro env symbol vendor resp bars recs h1 h2 h3
    rw [show (get_today_candlestick_stock_data env symbol vendor).2
        = candleResult symbol (vendor.stockBars (candleStockReq env symbol)) from rfl,
      h1] at h3
    exact candleResult_recs h2 h3
  · intro env symbol bars kvs recs h hs hd
    exact (histNormalize_success_shape h hs hd).1

theorem claim_C4_amended_witness :
    (valLookup candleRecAAPL "open" = lookupKey barAAPL "o" ∧
      valLookup candleRecAAPL "high" = lookupKey barAAPL "h" ∧
      valLookup candleRecAAPL "low" = lookupKey barAAPL "l" ∧
      valLookup candleRecAAPL "close" = lookupKey barAAPL "c" ∧
      valLookup candleRecAAPL "bar_volume" = lookupKey barAAPL "v" ∧
      valLookup candleRecAAPL "timestamp" = lookupKey barAAPL "t") ∧
    dfGet barAAPL "v" = Val.num 5 ∧
    mapExcept normalizeCandle [barAAPL] = Except.ok [candleRecAAPL] ∧
    [histRec env0 barAAPL] = ([barAAPL] : List Dict).map (histRec env0) := by
  obtain ⟨a1, a2, a3, a4, a5⟩ := claim_C4_amended
  refine ⟨a1 barAAPL candleRecAAPL rfl, a3 barAAPL "v" (Val.num 5) rfl,
          a4 env0 "AAPL" vendorAAPL [("AAPL", [barAAPL])] [barAAPL]
            [candleRecAAPL] rfl rfl rfl,
          a5 env0 "AAPL" [barAAPL]
            [("status", Val.str "success"), ("symbol", Val.str "AAPL"),
             ("historical_data", Val.list [histRec env0 barAAPL])]
            [histRec env0 barAAPL] rfl rfl rfl⟩

/-- C7.  The interval string maps case-insensitively to the vendor
timeframe, any unrecognized interval silently selects the day timeframe
(the whole call then behaves exactly as with `"day"`, producing no
interval error), and every request `get_historical_prices` issues carries
the selected timeframe. -/
theorem claim_C7 :
    (∀ i : String, pyLower i = "minute" → tfOfInterval i = TimeFrame.Minute) ∧
    (∀ i : String, pyLower i = "hour" → tfOfInterval i = TimeFrame.Hour) ∧
    (∀ i : String, pyLower i = "day" → tfOfInterval i = TimeFrame.Day) ∧
    (∀ i : String, pyLower i ≠ "minute" → pyLower i ≠ "hour" → pyLower i ≠ "day" →
      tfOfInterval i = TimeFrame.Day ∧
      ∀ (env : Env) (vendor : Vendor) (symbols sS eS : String),
        get_historical_prices env vendor symbols sS eS i
          = get_historical_prices env vendor symbols sS eS "day") ∧
    (∀ (env : Env) (vendor : Vendor) (symbols sS eS i : String) (c : DataCall),
      c ∈ (get_historical_prices env vendor symbols sS eS i).1 →
      DataCall.tf c = tfOfInterval i) := by
  refine ⟨?_, ?_, ?_, ?_, ?_⟩
  · intro i h
    unfold tfOfInterval
    rw [h]
    rfl
  · intro i h
    unfold tfOfInterval
    rw [h]
    rfl
  · intro i h
    unfold tfOfInterval
    rw [h]
    rfl
  · intro i h1 h2 h3
    have htf : tfOfInterval i = TimeFrame.Day := by
      unfold tfOfInterval
      split
      · rename_i heq
        exact absurd heq h1
      · rename_i heq
        exact absurd heq h2
      · rename_i heq
        exact absurd heq h3
      · rfl
    refine ⟨htf, ?_⟩
    intro env vendor symbols sS eS
    unfold get_historical_prices
    rw [htf]
    rfl
  · intro env vendor symbols sS eS i c hc
    exact histAfterTf_calls_tf hc

theorem claim_C7_witness :
    tfOfInterval "MINUTE" = TimeFrame.Minute ∧
    tfOfInterval "Hour" = TimeFrame.Hour ∧
    tfOfInterval "DAY" = TimeFrame.Day ∧
    tfOfInterval "weekly" = TimeFrame.Day ∧
    get_historical_prices env0 vendorAAPL "AAPL" "2025-06-01" "2025-06-30" "weekly"
      = get_historical_prices env0 vendorAAPL "AAPL" "2025-06-01" "2025-06-30" "day" ∧
    DataCall.tf (DataCall.stock (histStockReq "2025-06-01" "2025-06-30"
        TimeFrame.Day "AAPL")) = tfOfInterval "day" := by
  obtain ⟨p1, p2, p3, p4, p5⟩ := claim_C7
  refine ⟨p1 "MINUTE" (by decide), p2 "Hour" (by decide), p3 "DAY" (by decide),
          (p4 "weekly" (by decide) (by decide) (by decide)).1,
          (p4 "weekly" (by decide) (by decide) (by decide)).2 env0 vendorAAPL
            "AAPL" "2025-06-01" "2025-06-30",
          p5 env0 vendorAAPL "AAPL" "2025-06-01" "2025-06-30" "day"
            (DataCall.stock (histStockReq "2025-06-01" "2025-06-30"
              TimeFrame.Day "AAPL"))
            (List.mem_singleton_self _)⟩
